import Mathlib

/-!
Verification of the fpapi ingestion pipeline (CSV importer, CKAN catalog
client, database layer, orchestration workflow).

The JavaScript source is shallowly embedded as follows.

* JavaScript numbers produced by `parseFloat` are modelled by `JsNum`:
  either `nan`, a signed infinity, or an exact rational (double rounding is
  abstracted away; every claim below depends only on zero / non-zero /
  NaN distinctions).
* Strings read from CSV cells are `Option String` fields on `Record`
  (`none` models a key that is absent from the parsed row object);
  JavaScript truthiness of such a value is "present and non-empty".
  The source CSV key `ylaorganisaatio` is rendered as the Lean field
  `ylaorganisaatio_nimi`.
* The SQLite tables are modelled as finite maps keyed by their UNIQUE
  column: `procurement_invoices` by `lasku_id` (the table body carries the
  fifteen inserted columns; the surrogate `id` / `created_at` columns that
  no query of the repository reads are omitted), `dataset_metadata` by
  `resource_id`.  `INSERT OR REPLACE` becomes a pointwise functional
  update.  `CURRENT_TIMESTAMP` is an abstract `Nat` parameter `now`.
* The csv-parse stream is abstracted to the list of row objects it emits,
  so a downloaded file is a `List Record`; the raw leading bytes used by
  delimiter sniffing are a separate `Option String` (with `none` for an
  unreadable file).
* A storage failure of a batched upsert (`insertBatch` throwing inside its
  transaction) is modelled by an oracle `fail : List Invoice → Bool`; a
  failing batch leaves the table untouched (the transaction is atomic) and
  the surrounding `try`/`catch` of the `data` handler turns it into one
  row-level error.
-/

namespace Fpapi

/-- Result of JavaScript numeric coercion: NaN, a signed infinity
(`true` = negative), or a finite value represented exactly. -/
inductive JsNum where
  | nan : JsNum
  | inf : Bool → JsNum
  | num : Rat → JsNum
deriving DecidableEq, Repr

/-- Whitespace skipped by `parseFloat` (ECMA-262 StrWhiteSpaceChar). -/
def isJsWhitespace (c : Char) : Bool :=
  c = ' ' || c = '\t' || c = '\n' || c = '\r' || c = '\u000b' || c = '\u000c' ||
  c = '\u00a0' || c = '\ufeff' || c = '\u1680' || c = '\u2000' || c = '\u2001' ||
  c = '\u2002' || c = '\u2003' || c = '\u2004' || c = '\u2005' || c = '\u2006' ||
  c = '\u2007' || c = '\u2008' || c = '\u2009' || c = '\u200a' || c = '\u2028' ||
  c = '\u2029' || c = '\u202f' || c = '\u205f' || c = '\u3000'

/-- Decimal value of a digit character. -/
def digitVal (c : Char) : Nat := c.toNat - '0'.toNat

/-- Decimal value of a digit string, most significant digit first. -/
def digitsToNat (ds : List Char) : Nat := ds.foldl (fun n c => n * 10 + digitVal c) 0

/-- Exponent part of a JS decimal literal: after the mantissa, an optional
`e`/`E`, optional sign and digits; the exponent is only part of the longest
valid prefix when at least one digit follows. -/
def jsExponent (l : List Char) : Int :=
  match l with
  | c :: t =>
    if c = 'e' || c = 'E' then
      match t with
      | '+' :: u =>
        if (u.takeWhile (fun d => d.isDigit)).isEmpty then 0
        else (digitsToNat (u.takeWhile (fun d => d.isDigit)) : Int)
      | '-' :: u =>
        if (u.takeWhile (fun d => d.isDigit)).isEmpty then 0
        else -(digitsToNat (u.takeWhile (fun d => d.isDigit)) : Int)
      | u =>
        if (u.takeWhile (fun d => d.isDigit)).isEmpty then 0
        else (digitsToNat (u.takeWhile (fun d => d.isDigit)) : Int)
    else 0
  | [] => 0

/-- Longest-prefix parse of an unsigned JS decimal literal (the sign has
already been consumed); yields NaN when no prefix is a valid literal. -/
def jsParseUnsigned (neg : Bool) (l : List Char) : JsNum :=
  if "Infinity".data.isPrefixOf l then JsNum.inf neg
  else
    let ip := l.takeWhile (fun c => c.isDigit)
    let r1 := l.dropWhile (fun c => c.isDigit)
    let fp := match r1 with
      | '.' :: t => t.takeWhile (fun c => c.isDigit)
      | _ => []
    let r2 := match r1 with
      | '.' :: t => t.dropWhile (fun c => c.isDigit)
      | _ => r1
    if ip.isEmpty && fp.isEmpty then JsNum.nan
    else
      let e := jsExponent r2
      let mant : Int := (digitsToNat ip : Int) * (10 ^ fp.length : Nat) + (digitsToNat fp : Int)
      let scaledNum : Int := mant * (if 0 ≤ e then ((10 ^ e.toNat : Nat) : Int) else 1)
      let scaledDen : Nat := (10 ^ fp.length) * (if 0 ≤ e then 1 else 10 ^ (-e).toNat)
      let v : Rat := mkRat scaledNum scaledDen
      JsNum.num (if neg then -v else v)

/-- Model of JavaScript `parseFloat`. -/
def jsParseFloat (s : String) : JsNum :=
  match s.data.dropWhile isJsWhitespace with
  | '+' :: t => jsParseUnsigned false t
  | '-' :: t => jsParseUnsigned true t
  | t => jsParseUnsigned false t

/-- First truthy alternative of `a || d` on JS strings: an absent or empty
value falls through to the default. -/
def strOr (a : Option String) (d : String) : String :=
  match a with
  | some s => if s = "" then d else s
  | none => d

/-- First truthy alternative of `a || b || null` on JS strings. -/
def optOr (a b : Option String) : Option String :=
  match a with
  | some s =>
    if s = "" then
      match b with
      | some t => if t = "" then none else some t
      | none => none
    else some s
  | none =>
    match b with
    | some t => if t = "" then none else some t
    | none => none

/-- Is position 0 the start of four consecutive digits (head `c`, tail `tl`)? -/
def fourDigitHead (c : Char) (tl : List Char) : Bool :=
  c.isDigit &&
    (match tl with
     | c2 :: c3 :: c4 :: _ => c2.isDigit && c3.isDigit && c4.isDigit
     | _ => false)

/-- Leftmost window of four consecutive digits, as the regex `/(\d{4})/`
finds it (scanning positions left to right). -/
def findFourDigits : List Char → Option (List Char)
  | [] => none
  | c :: tl => if fourDigitHead c tl then some (c :: tl.take 3) else findFourDigits tl

/-- Model of `extractYearFromFilename` (ckan-client.js): value of the first
`/(\d{4})/` match, `null` when there is none. -/
def extractYearFromFilename (filename : String) : Option Int :=
  (findFourDigits filename.data).map (fun w => (digitsToNat w : Int))

/-- A parsed CSV row object (csv-parse with `columns: true`): each accessed
column is present with a string value or absent.  Field names follow the
source column keys; the key `ylaorganisaatio` is spelled
`ylaorganisaatio_nimi` here. -/
structure Record where
  lasku_id : Option String := none
  invoice_id : Option String := none
  hankintayksikko : Option String := none
  procurement_unit : Option String := none
  hankintayksikko_tunnus : Option String := none
  procurement_unit_id : Option String := none
  ylaorganisaatio_nimi : Option String := none
  parent_organization : Option String := none
  ylaorganisaatio_tunnus : Option String := none
  parent_organization_id : Option String := none
  toimittaja_y_tunnus : Option String := none
  supplier_business_id : Option String := none
  toimittaja_nimi : Option String := none
  supplier_name : Option String := none
  toimittaja_kunta : Option String := none
  supplier_city : Option String := none
  tili : Option String := none
  account : Option String := none
  hankintakategoria : Option String := none
  procurement_category : Option String := none
  tuote_palveluryhma : Option String := none
  product_service_group : Option String := none
  tositepvm : Option String := none
  invoice_entry_date : Option String := none
  tiliointisumma : Option String := none
  posting_sum : Option String := none
  sektori : Option String := none
  sector : Option String := none
deriving DecidableEq, Repr

/-- The canonical invoice object built by `importCSVFile` (the fifteen
columns inserted into `procurement_invoices`). -/
structure Invoice where
  lasku_id : String
  hankintayksikko : String
  hankintayksikko_tunnus : Option String
  ylaorganisaatio_nimi : Option String
  ylaorganisaatio_tunnus : Option String
  toimittaja_y_tunnus : Option String
  toimittaja_nimi : Option String
  toimittaja_kunta : Option String
  tili : Option String
  hankintakategoria : String
  tuote_palveluryhma : Option String
  tositepvm : String
  tiliointisumma : JsNum
  sektori : Option String
  data_year : Option Int
deriving DecidableEq, Repr

/-- Alias resolution and amount coercion of importCSVFile (part_000 lines
66-82): each canonical field from the Finnish column or its English alias,
the amount through `parseFloat(... || ... || '0')`, the year attached from
the filename. -/
def toInvoice (year : Option Int) (r : Record) : Invoice :=
  { lasku_id := strOr r.lasku_id (strOr r.invoice_id "")
    hankintayksikko := strOr r.hankintayksikko (strOr r.procurement_unit "")
    hankintayksikko_tunnus := optOr r.hankintayksikko_tunnus r.procurement_unit_id
    ylaorganisaatio_nimi := optOr r.ylaorganisaatio_nimi r.parent_organization
    ylaorganisaatio_tunnus := optOr r.ylaorganisaatio_tunnus r.parent_organization_id
    toimittaja_y_tunnus := optOr r.toimittaja_y_tunnus r.supplier_business_id
    toimittaja_nimi := optOr r.toimittaja_nimi r.supplier_name
    toimittaja_kunta := optOr r.toimittaja_kunta r.supplier_city
    tili := optOr r.tili r.account
    hankintakategoria := strOr r.hankintakategoria (strOr r.procurement_category "")
    tuote_palveluryhma := optOr r.tuote_palveluryhma r.product_service_group
    tositepvm := strOr r.tositepvm (strOr r.invoice_entry_date "")
    tiliointisumma := jsParseFloat (strOr r.tiliointisumma (strOr r.posting_sum "0"))
    sektori := optOr r.sektori r.sector
    data_year := year }

/-- Required-field validation (part_000 line 85): all four required fields
truthy, i.e. non-empty after alias resolution. -/
def validInvoice (inv : Invoice) : Bool :=
  !(inv.lasku_id = "") && !(inv.hankintayksikko = "") &&
  !(inv.hankintakategoria = "") && !(inv.tositepvm = "")

/-- Prefix of a string before the first newline, i.e. `split('\n')[0]`. -/
def firstLine (content : String) : String := String.mk (content.data.takeWhile (fun c => c ≠ '\n'))

/-- Character membership in a string (JS `String.prototype.includes` with a
one-character needle). -/
def strContainsChar (s : String) (c : Char) : Bool := s.data.contains c

/-- ASCII lowercasing (JS `toLowerCase` on the ASCII names involved). -/
def strToLower (s : String) : String := String.mk (s.data.map Char.toLower)

/-- Delimiter sniffing of importCSVFile (part_000 lines 14-38): the first
line of the leading bytes decides; a read failure (`none`) falls back to the
declared-format default. -/
def detectDelimiter (readBytes : Option String) (format : String) : Char :=
  match readBytes with
  | some content =>
    if strContainsChar (firstLine content) ';' then ';'
    else if strToLower format = "tsv" then '\t'
    else ','
  | none => if strToLower format = "tsv" then '\t' else ','

/-- A CKAN resource descriptor (the fields the pipeline reads). -/
structure Resource where
  id : String
  name : String
  url : String
  format : String
  last_modified : String
deriving DecidableEq, Repr

/-- Substring test (JS `String.prototype.includes`). -/
def hasSubstr (s pat : String) : Bool := s.data.tails.any (fun t => pat.data.isPrefixOf t)

/-- Resource selection predicate of `filterProcurementResources`
(ckan-client.js lines 53-65). -/
def resourceKeep (r : Resource) : Bool :=
  let n := strToLower r.name
  let f := strToLower r.format
  (("th_data_".data.isPrefixOf n.data) &&
    (f = "csv" || f = "tsv" || ".csv".data.isSuffixOf n.data || ".tsv".data.isSuffixOf n.data)) &&
  (!(hasSubstr n "kaannokset") && !(hasSubstr n "translation"))

/-- Sort key of the year comparator `yearB - yearA`: a `null` year takes
part in the subtraction as 0. -/
def yearKey (r : Resource) : Int := (extractYearFromFilename r.name).getD 0

/-- Model of `filterProcurementResources` (ckan-client.js lines 52-81):
filter, then sort by descending year.  The ECMAScript sort is stable and the
comparator is consistent, so any stable sort (here `List.mergeSort`)
produces the same output. -/
def filterProcurementResources (resources : List Resource) : List Resource :=
  (resources.filter resourceKeep).mergeSort (fun a b => decide (yearKey b ≤ yearKey a))

/-- A row of `dataset_metadata` as written by `updateMetadata`
(the columns of the INSERT OR REPLACE; `downloaded_at` carries the abstract
clock value standing for CURRENT_TIMESTAMP). -/
structure MetaRow where
  resource_name : String
  resource_url : String
  file_format : String
  data_year : Option Int
  last_modified : String
  downloaded_at : Nat
  records_imported : Nat
  status : String
deriving DecidableEq, Repr

/-- The `procurement_invoices` table as a map from the UNIQUE key
`lasku_id` to the stored row. -/
abbrev InvTable := String → Option Invoice

/-- The `dataset_metadata` table as a map from the UNIQUE key
`resource_id` to the stored row. -/
abbrev MetaTable := String → Option MetaRow

/-- The persistent database state (the two tables the pipeline writes). -/
structure DBState where
  invoices : InvTable
  metadata : MetaTable

/-- Database with both tables empty. -/
def emptyDB : DBState := { invoices := fun _ => none, metadata := fun _ => none }

/-- One `INSERT OR REPLACE INTO procurement_invoices` statement: replace by
the UNIQUE key `lasku_id`. -/
def upsertInvoice (t : InvTable) (inv : Invoice) : InvTable :=
  fun k => if k = inv.lasku_id then some inv else t k

/-- Model of `insertBatch` (part_000 lines 139-163): the per-batch
transaction runs one upsert per record, in order. -/
def insertBatch (t : InvTable) (batch : List Invoice) : InvTable :=
  batch.foldl upsertInvoice t

/-- One `INSERT OR REPLACE INTO dataset_metadata` statement: replace by the
UNIQUE key `resource_id`. -/
def upsertMeta (t : MetaTable) (rid : String) (row : MetaRow) : MetaTable :=
  fun k => if k = rid then some row else t k

/-- Model of `clearInvoiceData` (database.js lines 122-127): `DELETE FROM`
both tables, unconditionally. -/
def clearInvoiceData (_db : DBState) : DBState := emptyDB

/-- In-flight state of one `importCSVFile` run: the `records` buffer, the
two counters, the database, and the log of `insertBatch` calls issued so
far (each log entry is one batch, i.e. one storage transaction). -/
structure ImpState where
  buffer : List Invoice
  recordCount : Nat
  errorCount : Nat
  db : DBState
  flushLog : List (List Invoice)

/-- Importer state at the start of a file. -/
def initImp (db : DBState) : ImpState :=
  { buffer := [], recordCount := 0, errorCount := 0, db := db, flushLog := [] }

/-- The `data` handler of `importCSVFile` (part_000 lines 63-111) for one
record: build the invoice, validate, buffer, and flush a 1000-record batch
when the buffer fills.  The `splice` removes the batch from the buffer
before `insertBatch` runs, so when the batch fails (oracle `fail`) the
records are gone from the buffer, the transaction leaves the table
untouched, and the `catch` turns the exception into one error count. -/
def importStep (fail : List Invoice → Bool) (year : Option Int) (s : ImpState) (r : Record) :
    ImpState :=
  let inv := toInvoice year r
  if validInvoice inv then
    let buf := s.buffer ++ [inv]
    if 1000 ≤ buf.length then
      let batch := buf.take 1000
      let rest := buf.drop 1000
      if fail batch then
        { s with buffer := rest, recordCount := s.recordCount + 1,
                 errorCount := s.errorCount + 1, flushLog := s.flushLog ++ [batch] }
      else
        { s with buffer := rest, recordCount := s.recordCount + 1,
                 db := { s.db with invoices := insertBatch s.db.invoices batch },
                 flushLog := s.flushLog ++ [batch] }
    else
      { s with buffer := buf, recordCount := s.recordCount + 1 }
  else
    { s with errorCount := s.errorCount + 1 }

/-- The whole record stream of one file, processed in order. -/
def importRecords (fail : List Invoice → Bool) (year : Option Int) (s : ImpState)
    (rs : List Record) : ImpState :=
  rs.foldl (importStep fail year) s

/-- The ledger row written by `updateMetadata` (part_000 lines 168-183):
always status `completed`, `records_imported` from the accepted count. -/
def mkMetaRow (now : Nat) (res : Resource) (recordCount : Nat) : MetaRow :=
  { resource_name := res.name, resource_url := res.url, file_format := res.format,
    data_year := extractYearFromFilename res.name, last_modified := res.last_modified,
    downloaded_at := now, records_imported := recordCount, status := "completed" }

/-- Model of `updateMetadata`: upsert the ledger row for the resource. -/
def writeMeta (now : Nat) (res : Resource) (s : ImpState) : ImpState :=
  { s with db := { s.db with
      metadata := upsertMeta s.db.metadata res.id (mkMetaRow now res s.recordCount) } }

/-- The final-flush part of the `end` handler: insert the remaining partial
batch, when the buffer is non-empty. -/
def flushRemainder (s : ImpState) : ImpState :=
  if s.buffer.isEmpty then s
  else
    { s with buffer := [],
             db := { s.db with invoices := insertBatch s.db.invoices s.buffer },
             flushLog := s.flushLog ++ [s.buffer] }

/-- Model of `importCSVFile` (part_000 lines 9-134): process every record,
flush the final partial batch, write the ledger row, and resolve.  `none`
models the run where the final flush throws inside the unguarded `end`
handler (the promise never resolves); every mid-file batch failure is
caught per record and therefore still yields `some`. -/
def importCSVFile (fail : List Invoice → Bool) (db : DBState) (now : Nat) (res : Resource)
    (file : List Record) : Option ImpState :=
  let s := importRecords fail (extractYearFromFilename res.name) (initImp db) file
  if s.buffer.isEmpty then some (writeMeta now res s)
  else if fail s.buffer then none
  else some (writeMeta now res (flushRemainder s))

/-- The batch oracle of a storage layer whose transactions all succeed. -/
def neverFail : List Invoice → Bool := fun _ => false

/-- `importCSVFile` under the always-succeeding storage layer (total). -/
def importCSVFileNF (db : DBState) (now : Nat) (res : Resource) (file : List Record) :
    ImpState :=
  writeMeta now res
    (flushRemainder (importRecords neverFail (extractYearFromFilename res.name) (initImp db) file))

/-- One entry of `downloadAllProcurementFiles`'s result list: the parsed
content of the file on disk, the resource, and whether the download was
skipped because the file already existed and force was off. -/
structure DownloadResult where
  file : List Record
  resource : Resource
  skipped : Bool

/-- One entry of `importAllFiles`'s result list. -/
structure FileResult where
  filename : String
  success : Bool
  recordCount : Nat
  errorCount : Nat
deriving DecidableEq, Repr

/-- Model of `importAllFiles` (part_000 lines 188-220): every entry of the
download results is imported sequentially — the loop never consults the
`skipped` flag. -/
def importAllFiles (db : DBState) (now : Nat) : List DownloadResult → DBState × List FileResult
  | [] => (db, [])
  | dl :: dls =>
    let s := importCSVFileNF db now dl.resource dl.file
    let rest := importAllFiles s.db now dls
    (rest.1, { filename := dl.resource.name, success := true,
               recordCount := s.recordCount, errorCount := s.errorCount } :: rest.2)

/-- Model of `downloadAllProcurementFiles` (ckan-client.js lines 131-185):
filter the catalog, restrict to the requested years when a non-empty list
is given, then download or skip each resource.  `fileExists` models the
filesystem presence test and `fileOf` the parsed content of the file at the
resource's download path (identical whether freshly downloaded or
pre-existing). -/
def downloadAllProcurementFiles (catalog : List Resource) (years : Option (List Int))
    (force : Bool) (fileExists : String → Bool) (fileOf : String → List Record) :
    List DownloadResult :=
  let resources := filterProcurementResources catalog
  let sel := match years with
    | some ys =>
      if ys.isEmpty then resources
      else resources.filter (fun r => ((extractYearFromFilename r.name).map (fun y => ys.contains y)).getD false)
    | none => resources
  sel.map (fun r => { file := fileOf r.name, resource := r, skipped := fileExists r.name && !force })

/-- CLI options of the update workflow. -/
structure UpdateOpt where
  years : Option (List Int)
  forceRedownload : Bool
  clearExisting : Bool

/-- Model of `updateProcurementData` (part_000 orchestrator): initialize
(schema only — no data change), clear when requested, download, then import
every download result; an empty download list returns early. -/
def updateProcurementData (opts : UpdateOpt) (catalog : List Resource)
    (fileExists : String → Bool) (fileOf : String → List Record) (db : DBState) (now : Nat) :
    DBState × List FileResult :=
  let db1 := if opts.clearExisting then clearInvoiceData db else db
  let dls := downloadAllProcurementFiles catalog opts.years opts.forceRedownload fileExists fileOf
  if dls.isEmpty then (db1, [])
  else importAllFiles db1 now dls

/-- The accepted (validated) invoices of a file, in stream order. -/
def acceptedInvoices (year : Option Int) (rs : List Record) : List Invoice :=
  (rs.map (toInvoice year)).filter validInvoice

/-- Lookup after a fold of invoice upserts: the last write to the key wins,
and a key never written keeps its prior binding. -/
theorem insertBatch_apply (l : List Invoice) (t : InvTable) (k : String) :
    insertBatch t l k = (l.reverse.find? (fun v => v.lasku_id == k)).or (t k) := by
  induction l generalizing t with
  | nil => simp [insertBatch]
  | cons v l ih =>
    show insertBatch (upsertInvoice t v) l k = _
    rw [ih]
    rw [List.reverse_cons, List.find?_append]
    cases hf : l.reverse.find? (fun v => v.lasku_id == k) with
    | some w => simp
    | none =>
      simp only [Option.none_or]
      by_cases hk : v.lasku_id = k
      · simp [upsertInvoice, hk]
      · have hk2 : ¬k = v.lasku_id := fun h => hk h.symm
        simp [upsertInvoice, hk, hk2]

/-- Upserting the same list of invoices twice is the same as once. -/
theorem insertBatch_idem (t : InvTable) (l : List Invoice) :
    insertBatch (insertBatch t l) l = insertBatch t l := by
  funext k
  rw [insertBatch_apply, insertBatch_apply]
  cases l.reverse.find? (fun v => v.lasku_id == k) <;> simp

/-- Every binding after a fold of upserts is an inserted invoice or a prior
binding. -/
theorem insertBatch_mem (l : List Invoice) (t : InvTable) (k : String) (inv : Invoice)
    (h : insertBatch t l k = some inv) : inv ∈ l ∨ t k = some inv := by
  rw [insertBatch_apply] at h
  cases hf : l.reverse.find? (fun v => v.lasku_id == k) with
  | some w =>
    rw [hf, Option.or_some] at h
    cases h
    exact Or.inl (List.mem_reverse.mp (List.mem_of_find?_eq_some hf))
  | none =>
    rw [hf, Option.none_or] at h
    exact Or.inr h

/-- Folding `insertBatch` over a list of batches is one upsert fold over the
concatenated records. -/
theorem foldl_insertBatch_flatten (bs : List (List Invoice)) (t : InvTable) :
    bs.foldl insertBatch t = insertBatch t bs.flatten := by
  induction bs generalizing t with
  | nil => simp [insertBatch]
  | cons b bs ih =>
    rw [List.foldl_cons, ih, List.flatten_cons]
    show insertBatch (insertBatch t b) bs.flatten = _
    simp [insertBatch, List.foldl_append]

/-- Unfolding of `acceptedInvoices` over the head record. -/
theorem acceptedInvoices_cons (year : Option Int) (r : Record) (rs : List Record) :
    acceptedInvoices year (r :: rs) =
      if validInvoice (toInvoice year r) then toInvoice year r :: acceptedInvoices year rs
      else acceptedInvoices year rs := by
  simp [acceptedInvoices, List.filter_cons]

/-- A file never accepts more records than it contains. -/
theorem acceptedInvoices_length_le (year : Option Int) (rs : List Record) :
    (acceptedInvoices year rs).length ≤ rs.length := by
  have h := List.length_filter_le validInvoice (rs.map (toInvoice year))
  simpa [acceptedInvoices] using h

/-- A rejected record only bumps the error counter. -/
theorem importStep_invalid {fail : List Invoice → Bool} {year : Option Int} {s : ImpState}
    {r : Record} (hval : validInvoice (toInvoice year r) = false) :
    importStep fail year s r = { s with errorCount := s.errorCount + 1 } := by
  simp [importStep, hval]

/-- An accepted record below the batch boundary is only buffered. -/
theorem importStep_valid_small {fail : List Invoice → Bool} {year : Option Int} {s : ImpState}
    {r : Record} (hval : validInvoice (toInvoice year r) = true)
    (hsmall : s.buffer.length + 1 < 1000) :
    importStep fail year s r =
      { s with buffer := s.buffer ++ [toInvoice year r],
               recordCount := s.recordCount + 1 } := by
  have hcond : ¬ 999 ≤ s.buffer.length := by omega
  simp [importStep, hval, hcond]

/-- An accepted record that fills the buffer to 1000 flushes the whole
buffer as one batch; a failing batch is dropped (table untouched) and
counted as one error. -/
theorem importStep_valid_flush_fail {fail : List Invoice → Bool} {year : Option Int}
    {s : ImpState} {r : Record} (hval : validInvoice (toInvoice year r) = true)
    (hlen : s.buffer.length = 999)
    (hfail : fail (s.buffer ++ [toInvoice year r]) = true) :
    importStep fail year s r =
      { s with buffer := [], recordCount := s.recordCount + 1,
               errorCount := s.errorCount + 1,
               flushLog := s.flushLog ++ [s.buffer ++ [toInvoice year r]] } := by
  have hbl : (s.buffer ++ [toInvoice year r]).length = 1000 := by
    simp only [List.length_append, List.length_singleton]
    omega
  have hcond : 1000 ≤ (s.buffer ++ [toInvoice year r]).length := by omega
  have htake : (s.buffer ++ [toInvoice year r]).take 1000 = s.buffer ++ [toInvoice year r] :=
    List.take_of_length_le (by omega)
  have hdrop : (s.buffer ++ [toInvoice year r]).drop 1000 = [] :=
    List.drop_of_length_le (by omega)
  simp only [importStep, hval, if_true, htake, hdrop, hfail]
  simp
  omega

/-- An accepted record that fills the buffer to 1000 flushes the whole
buffer as one batch; a successful batch is upserted inside one
transaction. -/
theorem importStep_valid_flush_ok {fail : List Invoice → Bool} {year : Option Int}
    {s : ImpState} {r : Record} (hval : validInvoice (toInvoice year r) = true)
    (hlen : s.buffer.length = 999)
    (hfail : fail (s.buffer ++ [toInvoice year r]) = false) :
    importStep fail year s r =
      { s with buffer := [], recordCount := s.recordCount + 1,
               db := { s.db with
                 invoices := insertBatch s.db.invoices (s.buffer ++ [toInvoice year r]) },
               flushLog := s.flushLog ++ [s.buffer ++ [toInvoice year r]] } := by
  have hbl : (s.buffer ++ [toInvoice year r]).length = 1000 := by
    simp only [List.length_append, List.length_singleton]
    omega
  have hcond : 1000 ≤ (s.buffer ++ [toInvoice year r]).length := by omega
  have htake : (s.buffer ++ [toInvoice year r]).take 1000 = s.buffer ++ [toInvoice year r] :=
    List.take_of_length_le (by omega)
  have hdrop : (s.buffer ++ [toInvoice year r]).drop 1000 = [] :=
    List.drop_of_length_le (by omega)
  simp only [importStep, hval, if_true, htake, hdrop, hfail]
  simp
  omega

/-- Invariant of the record-processing loop, for an arbitrary batch oracle:
starting from a buffer below the batch size, the loop appends some list of
full 1000-record batches to the flush log; flushed batches plus the final
buffer are exactly the prior buffer plus the accepted invoices in order;
counters, buffer size and batch count are determined arithmetically; the
invoice table receives exactly the successful batches in order; the ledger
is untouched. -/
theorem importRecords_spec (fail : List Invoice → Bool) (year : Option Int)
    (rs : List Record) : ∀ s : ImpState, s.buffer.length < 1000 →
    ∃ newLog : List (List Invoice),
      (importRecords fail year s rs).flushLog = s.flushLog ++ newLog ∧
      (∀ b ∈ newLog, b.length = 1000) ∧
      newLog.flatten ++ (importRecords fail year s rs).buffer
        = s.buffer ++ acceptedInvoices year rs ∧
      (importRecords fail year s rs).buffer.length
        = (s.buffer.length + (acceptedInvoices year rs).length) % 1000 ∧
      newLog.length = (s.buffer.length + (acceptedInvoices year rs).length) / 1000 ∧
      (importRecords fail year s rs).recordCount
        = s.recordCount + (acceptedInvoices year rs).length ∧
      (importRecords fail year s rs).errorCount
        = s.errorCount + (rs.length - (acceptedInvoices year rs).length)
            + (newLog.filter fail).length ∧
      (importRecords fail year s rs).db.invoices
        = (newLog.filter (fun b => !fail b)).foldl insertBatch s.db.invoices ∧
      (importRecords fail year s rs).db.metadata = s.db.metadata := by
  induction rs with
  | nil =>
    intro s hbuf
    refine ⟨[], by simp [importRecords], by simp, ?_, ?_, ?_, ?_, ?_, ?_, ?_⟩ <;>
      simp [importRecords, acceptedInvoices] <;> omega
  | cons r rs ih =>
    intro s hbuf
    have hacc := acceptedInvoices_length_le year rs
    have hcons : importRecords fail year s (r :: rs)
        = importRecords fail year (importStep fail year s r) rs := rfl
    by_cases hval : validInvoice (toInvoice year r) = true
    · by_cases hfull : s.buffer.length + 1 < 1000
      · -- buffered, no flush
        have hstep := @importStep_valid_small fail year s r hval hfull
        rw [hcons, hstep]
        obtain ⟨L, h1, h2, h3, h4, h5, h6, h7, h8, h9⟩ :=
          ih { s with buffer := s.buffer ++ [toInvoice year r],
                      recordCount := s.recordCount + 1 } (by simp; omega)
        refine ⟨L, ?_, h2, ?_, ?_, ?_, ?_, ?_, ?_, ?_⟩
        · simpa using h1
        · rw [h3]
          simp [acceptedInvoices_cons, hval]
        · rw [h4]
          simp only [acceptedInvoices_cons, hval, if_true]
          simp <;> omega
        · rw [h5]
          simp only [acceptedInvoices_cons, hval, if_true]
          simp <;> omega
        · rw [h6]
          simp only [acceptedInvoices_cons, hval, if_true]
          simp <;> omega
        · rw [h7]
          simp only [acceptedInvoices_cons, hval, if_true]
          simp <;> omega
        · simpa using h8
        · simpa using h9
      · -- flush at the batch boundary
        have hlen : s.buffer.length = 999 := by omega
        by_cases hfail : fail (s.buffer ++ [toInvoice year r]) = true
        · have hstep := @importStep_valid_flush_fail fail year s r hval hlen hfail
          rw [hcons, hstep]
          obtain ⟨L, h1, h2, h3, h4, h5, h6, h7, h8, h9⟩ :=
            ih { s with buffer := [], recordCount := s.recordCount + 1,
                        errorCount := s.errorCount + 1,
                        flushLog := s.flushLog ++ [s.buffer ++ [toInvoice year r]] }
              (by simp)
          refine ⟨(s.buffer ++ [toInvoice year r]) :: L, ?_, ?_, ?_, ?_, ?_, ?_, ?_, ?_, ?_⟩
          · rw [h1]
            simp
          · intro b hb
            cases hb with
            | head => simp; omega
            | tail _ hb => exact h2 b hb
          · simp only [List.flatten_cons, List.append_assoc]
            rw [h3]
            simp [acceptedInvoices_cons, hval]
          · rw [h4]
            simp only [acceptedInvoices_cons, hval, if_true]
            simp <;> omega
          · rw [List.length_cons, h5]
            simp only [acceptedInvoices_cons, hval, if_true]
            simp <;> omega
          · rw [h6]
            simp only [acceptedInvoices_cons, hval, if_true]
            simp <;> omega
          · rw [h7]
            simp only [acceptedInvoices_cons, hval, if_true, List.filter_cons, hfail]
            simp <;> omega
          · rw [h8]
            simp [List.filter_cons, hfail]
          · simpa using h9
        · have hfail2 : fail (s.buffer ++ [toInvoice year r]) = false := by
            simpa using hfail
          have hstep := @importStep_valid_flush_ok fail year s r hval hlen hfail2
          rw [hcons, hstep]
          obtain ⟨L, h1, h2, h3, h4, h5, h6, h7, h8, h9⟩ :=
            ih { s with buffer := [], recordCount := s.recordCount + 1,
                        db := { s.db with
                          invoices := insertBatch s.db.invoices (s.buffer ++ [toInvoice year r]) },
                        flushLog := s.flushLog ++ [s.buffer ++ [toInvoice year r]] }
              (by simp)
          refine ⟨(s.buffer ++ [toInvoice year r]) :: L, ?_, ?_, ?_, ?_, ?_, ?_, ?_, ?_, ?_⟩
          · rw [h1]
            simp
          · intro b hb
            cases hb with
            | head => simp; omega
            | tail _ hb => exact h2 b hb
          · simp only [List.flatten_cons, List.append_assoc]
            rw [h3]
            simp [acceptedInvoices_cons, hval]
          · rw [h4]
            simp only [acceptedInvoices_cons, hval, if_true]
            simp <;> omega
          · rw [List.length_cons, h5]
            simp only [acceptedInvoices_cons, hval, if_true]
            simp <;> omega
          · rw [h6]
            simp only [acceptedInvoices_cons, hval, if_true]
            simp <;> omega
          · rw [h7]
            simp only [acceptedInvoices_cons, hval, if_true, List.filter_cons, hfail2]
            simp <;> omega
          · rw [h8]
            simp [List.filter_cons, hfail2]
          · simpa using h9
    · -- rejected record
      have hval2 : validInvoice (toInvoice year r) = false := by simpa using hval
      have hstep := @importStep_invalid fail year s r hval2
      rw [hcons, hstep]
      obtain ⟨L, h1, h2, h3, h4, h5, h6, h7, h8, h9⟩ :=
        ih { s with errorCount := s.errorCount + 1 } (by simpa using hbuf)
      refine ⟨L, ?_, h2, ?_, ?_, ?_, ?_, ?_, ?_, ?_⟩
      · simpa using h1
      · rw [h3]
        simp [acceptedInvoices_cons, hval2]
      · rw [h4]
        simp [acceptedInvoices_cons, hval2]
      · rw [h5]
        simp [acceptedInvoices_cons, hval2]
      · rw [h6]
        simp [acceptedInvoices_cons, hval2]
      · rw [h7]
        simp only [acceptedInvoices_cons, hval2, if_false]
        simp
        omega
      · simpa using h8
      · simpa using h9

/-- Upserting two batches in a row upserts the concatenation. -/
theorem insertBatch_append (t : InvTable) (a b : List Invoice) :
    insertBatch (insertBatch t a) b = insertBatch t (a ++ b) := by
  simp [insertBatch, List.foldl_append]

/-- Characterization of one no-failure `importCSVFile` run: the invoice
table receives exactly the accepted invoices (one upsert each, in stream
order), the ledger gets one completed row keyed by the resource id with the
accepted count, and the returned counters are the accepted count and the
rejected count. -/
theorem importCSVFileNF_spec (db : DBState) (now : Nat) (res : Resource) (file : List Record) :
    (importCSVFileNF db now res file).db.invoices
        = insertBatch db.invoices (acceptedInvoices (extractYearFromFilename res.name) file) ∧
    (importCSVFileNF db now res file).db.metadata
        = upsertMeta db.metadata res.id
            (mkMetaRow now res (acceptedInvoices (extractYearFromFilename res.name) file).length) ∧
    (importCSVFileNF db now res file).recordCount
        = (acceptedInvoices (extractYearFromFilename res.name) file).length ∧
    (importCSVFileNF db now res file).errorCount
        = file.length - (acceptedInvoices (extractYearFromFilename res.name) file).length := by
  obtain ⟨L, h1, h2, h3, h4, h5, h6, h7, h8, h9⟩ :=
    importRecords_spec neverFail (extractYearFromFilename res.name) file (initImp db)
      (by simp [initImp])
  have hfilterT : L.filter (fun b => !neverFail b) = L := by
    simp [neverFail]
  have hfilterF : L.filter neverFail = [] := by
    simp [neverFail]
  have hInv : (importRecords neverFail (extractYearFromFilename res.name) (initImp db)
      file).db.invoices = insertBatch db.invoices L.flatten := by
    rw [h8, hfilterT, foldl_insertBatch_flatten]
    rfl
  have hMeta : (importRecords neverFail (extractYearFromFilename res.name) (initImp db)
      file).db.metadata = db.metadata := by
    rw [h9]
    rfl
  have hRec : (importRecords neverFail (extractYearFromFilename res.name) (initImp db)
      file).recordCount = (acceptedInvoices (extractYearFromFilename res.name) file).length := by
    rw [h6]
    simp [initImp]
  have hErr : (importRecords neverFail (extractYearFromFilename res.name) (initImp db)
      file).errorCount
      = file.length - (acceptedInvoices (extractYearFromFilename res.name) file).length := by
    rw [h7, hfilterF]
    simp [initImp]
  have hFlat : L.flatten ++ (importRecords neverFail (extractYearFromFilename res.name)
      (initImp db) file).buffer = acceptedInvoices (extractYearFromFilename res.name) file := by
    rw [h3]
    rfl
  unfold importCSVFileNF
  by_cases hbuf :
      (importRecords neverFail (extractYearFromFilename res.name) (initImp db) file).buffer = []
  · rw [flushRemainder, if_pos (by simp [hbuf])]
    rw [hbuf, List.append_nil] at hFlat
    refine ⟨?_, ?_, ?_, ?_⟩
    · show (importRecords neverFail _ _ _).db.invoices = _
      rw [hInv, hFlat]
    · show upsertMeta (importRecords neverFail _ _ _).db.metadata _ _ = _
      rw [hMeta, hRec]
    · exact hRec
    · exact hErr
  · rw [flushRemainder, if_neg (by simp [hbuf])]
    refine ⟨?_, ?_, ?_, ?_⟩
    · show insertBatch (importRecords neverFail _ _ _).db.invoices _ = _
      rw [hInv, insertBatch_append, hFlat]
    · show upsertMeta (importRecords neverFail _ _ _).db.metadata _ _ = _
      rw [hMeta, hRec]
    · exact hRec
    · exact hErr

/-- C4: importing the same file twice in succession leaves the invoice
table in exactly the state of one import.  The table is modelled as a map
keyed by the UNIQUE column `lasku_id`, so equal tables have the same row
count and the same field values for every row; each per-record write is the
insert-or-replace `upsertInvoice` keyed on `lasku_id`, never a duplicating
insert. -/
theorem import_twice_idempotent (db : DBState) (now1 now2 : Nat) (res : Resource)
    (file : List Record) :
    (importCSVFileNF (importCSVFileNF db now1 res file).db now2 res file).db.invoices
      = (importCSVFileNF db now1 res file).db.invoices := by
  obtain ⟨hI1, _, _, _⟩ := importCSVFileNF_spec db now1 res file
  obtain ⟨hI2, _, _, _⟩ := importCSVFileNF_spec (importCSVFileNF db now1 res file).db now2 res file
  rw [hI2, hI1, insertBatch_idem]

/-- C5: a record with any required field empty after alias resolution is
rejected: the error count increments and nothing else changes (the record
count, buffer, flush log and both tables are untouched); the step is a
total function (no exception), and the loop simply continues with the
remaining records from the bumped state. -/
theorem invalid_record_rejected (fail : List Invoice → Bool) (year : Option Int)
    (s : ImpState) (r : Record)
    (h : (toInvoice year r).lasku_id = "" ∨ (toInvoice year r).hankintayksikko = ""
       ∨ (toInvoice year r).hankintakategoria = "" ∨ (toInvoice year r).tositepvm = "") :
    importStep fail year s r = { s with errorCount := s.errorCount + 1 } ∧
    ∀ rs, importRecords fail year s (r :: rs)
        = importRecords fail year { s with errorCount := s.errorCount + 1 } rs := by
  have hval : validInvoice (toInvoice year r) = false := by
    rcases h with h | h | h | h <;> simp [validInvoice, h]
  refine ⟨importStep_invalid hval, fun rs => ?_⟩
  show importRecords fail year (importStep fail year s r) rs = _
  rw [importStep_invalid hval]

/-- Record missing the invoice identifier under both aliases. -/
def recMissingId : Record :=
  { hankintayksikko := some "Yksikko", hankintakategoria := some "Kategoria",
    tositepvm := some "2024-01-02" }

/-- Witness for C5 at a concrete record with no identifier. -/
theorem invalid_record_rejected_witness :
    importStep neverFail (some 2024) (initImp emptyDB) recMissingId
      = { initImp emptyDB with errorCount := (initImp emptyDB).errorCount + 1 } :=
  (invalid_record_rejected neverFail (some 2024) (initImp emptyDB) recMissingId
    (Or.inl (by decide))).1

/-- Record whose amount field is present but not parseable as a number. -/
def recBadAmount : Record :=
  { lasku_id := some "A1", hankintayksikko := some "Yksikko",
    hankintakategoria := some "Kategoria", tositepvm := some "2024-01-02",
    tiliointisumma := some "abc" }

/-- C1 counterexample: for a record whose amount field is the unparseable
string "abc", the stored amount is NaN, not zero, while the record passes
validation (it is accepted, not rejected). -/
theorem amount_unparseable_not_zero :
    (toInvoice (some 2024) recBadAmount).tiliointisumma = JsNum.nan ∧
    JsNum.nan ≠ JsNum.num 0 ∧
    validInvoice (toInvoice (some 2024) recBadAmount) = true :=
  ⟨by decide, by decide, by decide⟩

/-- Evaluation of the default amount literal. -/
theorem jsParseFloat_zero : jsParseFloat "0" = JsNum.num 0 := by decide

/-- C1 amended: the amount is coerced by JS `parseFloat` applied to the
alias-resolved value with default "0"; a missing or empty amount yields
exactly zero, while a non-empty unparseable amount yields NaN; validation
never depends on the amount fields, so no record is rejected on account of
its amount. -/
theorem amount_coercion_spec (year : Option Int) (r : Record) :
    (toInvoice year r).tiliointisumma
        = jsParseFloat (strOr r.tiliointisumma (strOr r.posting_sum "0")) ∧
    ((r.tiliointisumma.getD "" = "" ∧ r.posting_sum.getD "" = "") →
      (toInvoice year r).tiliointisumma = JsNum.num 0) ∧
    (∀ a b : Option String,
      validInvoice (toInvoice year { r with tiliointisumma := a, posting_sum := b })
        = validInvoice (toInvoice year r)) := by
  refine ⟨rfl, ?_, fun a b => rfl⟩
  rintro ⟨h1, h2⟩
  show jsParseFloat (strOr r.tiliointisumma (strOr r.posting_sum "0")) = JsNum.num 0
  have e1 : strOr r.tiliointisumma (strOr r.posting_sum "0") = "0" := by
    cases hr : r.tiliointisumma with
    | none =>
      cases hp : r.posting_sum with
      | none => rfl
      | some t =>
        rw [hp] at h2
        simp at h2
        simp [strOr, h2]
    | some v =>
      rw [hr] at h1
      simp at h1
      cases hp : r.posting_sum with
      | none => simp [strOr, h1]
      | some t =>
        rw [hp] at h2
        simp at h2
        simp [strOr, h1, h2]
  rw [e1, jsParseFloat_zero]

/-- Record with all required fields present and no amount field at all. -/
def recNoAmount : Record :=
  { lasku_id := some "A2", hankintayksikko := some "Yksikko",
    hankintakategoria := some "Kategoria", tositepvm := some "2024-01-02" }

/-- Witness for the amended C1 at a record with a missing amount field. -/
theorem amount_coercion_spec_witness :
    (toInvoice (some 2024) recNoAmount).tiliointisumma = JsNum.num 0 :=
  (amount_coercion_spec (some 2024) recNoAmount).2.1 ⟨rfl, rfl⟩

/-- C8: delimiter detection looks only at the first line of the bytes read
from the head of the file: a semicolon there wins regardless of the
declared format, otherwise a declared tsv selects tab, otherwise comma; an
unreadable file (read result `none`) falls back to the declared-format
default, and the function is total (never raises). -/
theorem detectDelimiter_spec (readBytes : Option String) (format : String) :
    (∀ s, readBytes = some s →
      (strContainsChar (firstLine s) ';' = true → detectDelimiter readBytes format = ';') ∧
      (strContainsChar (firstLine s) ';' = false → strToLower format = "tsv" →
        detectDelimiter readBytes format = '\t') ∧
      (strContainsChar (firstLine s) ';' = false → strToLower format ≠ "tsv" →
        detectDelimiter readBytes format = ',')) ∧
    (readBytes = none →
      (strToLower format = "tsv" → detectDelimiter readBytes format = '\t') ∧
      (strToLower format ≠ "tsv" → detectDelimiter readBytes format = ',')) ∧
    (∀ s t, firstLine s = firstLine t →
      detectDelimiter (some s) format = detectDelimiter (some t) format) := by
  refine ⟨?_, ?_, ?_⟩
  · rintro s rfl
    exact ⟨fun hc => by simp [detectDelimiter, hc],
           fun hc ht => by simp [detectDelimiter, hc, ht],
           fun hc ht => by simp [detectDelimiter, hc, ht]⟩
  · rintro rfl
    exact ⟨fun ht => by simp [detectDelimiter, ht],
           fun ht => by simp [detectDelimiter, ht]⟩
  · intro s t h
    simp [detectDelimiter, h]

/-- Witness for C8 on the three concrete cases. -/
theorem detectDelimiter_spec_witness :
    detectDelimiter (some "a;b\nrest") "csv" = ';' ∧
    detectDelimiter none "TSV" = '\t' ∧
    detectDelimiter (some "a,b") "csv" = ',' :=
  ⟨((detectDelimiter_spec (some "a;b\nrest") "csv").1 _ rfl).1 (by decide),
   ((detectDelimiter_spec none "TSV").2.1 rfl).1 (by decide),
   ((detectDelimiter_spec (some "a,b") "csv").1 _ rfl).2.2 (by decide) (by decide)⟩

/-- C7: a file of exactly 1999 accepted records is flushed by exactly two
`insertBatch` calls — one batch of 1000 at the boundary and one final
partial batch of 999 — each one storage transaction (one flush-log entry),
and the reported record count is 1999. -/
theorem batch_flush_1999 (db : DBState) (now : Nat) (res : Resource) (file : List Record)
    (hval : ∀ r ∈ file, validInvoice (toInvoice (extractYearFromFilename res.name) r) = true)
    (hlen : file.length = 1999) :
    (importCSVFileNF db now res file).flushLog.map List.length = [1000, 999] ∧
    (importCSVFileNF db now res file).recordCount = 1999 := by
  have hacc : (acceptedInvoices (extractYearFromFilename res.name) file).length = 1999 := by
    have heq : acceptedInvoices (extractYearFromFilename res.name) file
        = file.map (toInvoice (extractYearFromFilename res.name)) := by
      unfold acceptedInvoices
      apply List.filter_eq_self.mpr
      intro a ha
      obtain ⟨r, hr, rfl⟩ := List.mem_map.mp ha
      exact hval r hr
    rw [heq, List.length_map, hlen]
  obtain ⟨L, h1, h2, h3, h4, h5, h6, h7, h8, h9⟩ :=
    importRecords_spec neverFail (extractYearFromFilename res.name) file (initImp db)
      (by simp [initImp])
  have hL1 : L.length = 1 := by
    rw [h5, hacc]
    simp [initImp]
  obtain ⟨b, rfl⟩ := List.length_eq_one.mp hL1
  have hb : b.length = 1000 := h2 b (by simp)
  have hbuf : (importRecords neverFail (extractYearFromFilename res.name) (initImp db)
      file).buffer.length = 999 := by
    rw [h4, hacc]
    simp [initImp]
  have hbufne : ¬ (importRecords neverFail (extractYearFromFilename res.name) (initImp db)
      file).buffer.isEmpty = true := by
    intro hcontra
    rw [List.isEmpty_iff] at hcontra
    rw [hcontra] at hbuf
    simp at hbuf
  constructor
  · show (writeMeta now res (flushRemainder _)).flushLog.map List.length = _
    rw [writeMeta]
    rw [flushRemainder, if_neg hbufne]
    simp only [h1]
    simp [initImp, hb]
    exact hbuf
  · have hc := (importCSVFileNF_spec db now res file).2.2.1
    rw [hc, hacc]

/-- Record that passes validation. -/
def recValid : Record :=
  { lasku_id := some "A3", hankintayksikko := some "Yksikko",
    hankintakategoria := some "Kategoria", tositepvm := some "2024-01-03",
    tiliointisumma := some "10.5" }

/-- An example resource descriptor. -/
def resExample : Resource :=
  { id := "res-1", name := "th_data_2024.csv", url := "u", format := "CSV",
    last_modified := "lm" }

/-- Witness for C7: 1999 copies of a concrete valid record. -/
theorem batch_flush_1999_witness :
    (importCSVFileNF emptyDB 0 resExample (List.replicate 1999 recValid)).flushLog.map
        List.length = [1000, 999] :=
  (batch_flush_1999 emptyDB 0 resExample (List.replicate 1999 recValid)
    (fun r hr => by rw [List.eq_of_mem_replicate hr]; decide)
    (by rw [List.length_replicate])).1

/-- C10: under an arbitrary storage oracle, whenever `importCSVFile`
resolves (returns `some`), a file whose records are all valid reports
`recordCount` equal to the full file length even though every failed batch
was dropped; each failed batch contributes exactly one error count; the
invoice table holds exactly the successful batches (the dropped batches are
not retried); and the ledger row is written with status "completed" and
`records_imported` equal to the full count including the dropped records. -/
theorem batch_failure_tolerated (fail : List Invoice → Bool) (db : DBState) (now : Nat)
    (res : Resource) (file : List Record) (sFinal : ImpState)
    (hval : ∀ r ∈ file, validInvoice (toInvoice (extractYearFromFilename res.name) r) = true)
    (hrun : importCSVFile fail db now res file = some sFinal) :
    sFinal.recordCount = file.length ∧
    sFinal.errorCount = (sFinal.flushLog.filter fail).length ∧
    sFinal.db.invoices
      = (sFinal.flushLog.filter (fun b => !fail b)).foldl insertBatch db.invoices ∧
    sFinal.db.metadata res.id = some (mkMetaRow now res file.length) := by
  have hacc : acceptedInvoices (extractYearFromFilename res.name) file
      = file.map (toInvoice (extractYearFromFilename res.name)) := by
    unfold acceptedInvoices
    apply List.filter_eq_self.mpr
    intro a ha
    obtain ⟨r, hr, rfl⟩ := List.mem_map.mp ha
    exact hval r hr
  have hlacc : (acceptedInvoices (extractYearFromFilename res.name) file).length
      = file.length := by rw [hacc, List.length_map]
  obtain ⟨L, h1, h2, h3, h4, h5, h6, h7, h8, h9⟩ :=
    importRecords_spec fail (extractYearFromFilename res.name) file (initImp db)
      (by simp [initImp])
  have hRecP : (importRecords fail (extractYearFromFilename res.name) (initImp db)
      file).recordCount = file.length := by
    rw [h6, hlacc]
    simp [initImp]
  have hErrP : (importRecords fail (extractYearFromFilename res.name) (initImp db)
      file).errorCount = (L.filter fail).length := by
    rw [h7, hlacc]
    simp [initImp]
  have hLogP : (importRecords fail (extractYearFromFilename res.name) (initImp db)
      file).flushLog = L := by
    rw [h1]
    rfl
  have hMetaP : (importRecords fail (extractYearFromFilename res.name) (initImp db)
      file).db.metadata = db.metadata := by
    rw [h9]
    rfl
  have hInvP : (importRecords fail (extractYearFromFilename res.name) (initImp db)
      file).db.invoices = (L.filter (fun b => !fail b)).foldl insertBatch db.invoices := by
    rw [h8]
    rfl
  rw [importCSVFile] at hrun
  by_cases hbuf :
      (importRecords fail (extractYearFromFilename res.name) (initImp db) file).buffer.isEmpty
        = true
  · rw [if_pos hbuf] at hrun
    cases hrun
    refine ⟨hRecP, ?_, ?_, ?_⟩
    · show (importRecords fail _ _ _).errorCount = _
      rw [hErrP]
      show _ = (((importRecords fail _ _ _).flushLog.filter fail)).length
      rw [hLogP]
    · show (importRecords fail _ _ _).db.invoices = _
      rw [hInvP]
      show _ = (((importRecords fail _ _ _).flushLog.filter (fun b => !fail b))).foldl
        insertBatch db.invoices
      rw [hLogP]
    · show upsertMeta (importRecords fail _ _ _).db.metadata res.id
          (mkMetaRow now res (importRecords fail _ _ _).recordCount) res.id = _
      rw [hRecP]
      simp [upsertMeta]
  · rw [if_neg hbuf] at hrun
    by_cases hff :
        fail (importRecords fail (extractYearFromFilename res.name) (initImp db) file).buffer
          = true
    · rw [if_pos hff] at hrun
      cases hrun
    · rw [if_neg hff] at hrun
      cases hrun
      have hff2 : fail (importRecords fail (extractYearFromFilename res.name) (initImp db)
          file).buffer = false := by simpa using hff
      have hFR : flushRemainder (importRecords fail (extractYearFromFilename res.name)
          (initImp db) file)
          = { importRecords fail (extractYearFromFilename res.name) (initImp db) file with
              buffer := [],
              db := { (importRecords fail (extractYearFromFilename res.name) (initImp db)
                        file).db with
                invoices := insertBatch (importRecords fail (extractYearFromFilename res.name)
                  (initImp db) file).db.invoices
                  (importRecords fail (extractYearFromFilename res.name) (initImp db)
                    file).buffer },
              flushLog := (importRecords fail (extractYearFromFilename res.name) (initImp db)
                file).flushLog ++ [(importRecords fail (extractYearFromFilename res.name)
                  (initImp db) file).buffer] } := by
        rw [flushRemainder, if_neg hbuf]
      refine ⟨?_, ?_, ?_, ?_⟩
      · show (writeMeta now res (flushRemainder _)).recordCount = _
        rw [writeMeta, hFR]
        exact hRecP
      · show (writeMeta now res (flushRemainder _)).errorCount
          = ((writeMeta now res (flushRemainder _)).flushLog.filter fail).length
        rw [writeMeta, hFR]
        show (importRecords fail _ _ _).errorCount = _
        rw [hErrP]
        simp [List.filter_append, hLogP, hff2]
      · show (writeMeta now res (flushRemainder _)).db.invoices
          = ((writeMeta now res (flushRemainder _)).flushLog.filter (fun b => !fail b)).foldl
              insertBatch db.invoices
        rw [writeMeta, hFR]
        show insertBatch (importRecords fail _ _ _).db.invoices _ = _
        rw [hInvP]
        simp only [hLogP, List.filter_append, List.foldl_append]
        simp [hff2]
      · show upsertMeta (flushRemainder _).db.metadata res.id
            (mkMetaRow now res (flushRemainder _).recordCount) res.id = _
        rw [hFR]
        show upsertMeta (importRecords fail _ _ _).db.metadata res.id
            (mkMetaRow now res (importRecords fail _ _ _).recordCount) res.id = _
        rw [hRecP]
        simp [upsertMeta]

/-- Witness for C10 at a concrete run that resolves. -/
theorem batch_failure_tolerated_witness :
    (writeMeta 0 resExample (initImp emptyDB)).db.metadata resExample.id
      = some (mkMetaRow 0 resExample 0) :=
  (batch_failure_tolerated neverFail emptyDB 0 resExample []
    (writeMeta 0 resExample (initImp emptyDB)) (by simp) rfl).2.2.2

/-- Ledger row present before the run, used by the C3 counterexample. -/
def oldMetaRow : MetaRow :=
  { resource_name := "th_data_2023.csv", resource_url := "u", file_format := "CSV",
    data_year := some 2023, last_modified := "old", downloaded_at := 1,
    records_imported := 5, status := "completed" }

/-- Resource whose file is already on disk. -/
def resSkip : Resource :=
  { id := "r1", name := "th_data_2023.csv", url := "u", format := "CSV",
    last_modified := "lm" }

/-- Database holding a prior ledger row for that resource. -/
def dbWithLedger : DBState :=
  { invoices := fun _ => none,
    metadata := fun k => if k = "r1" then some oldMetaRow else none }

/-- A download result marked skipped: the file already existed and force
was off. -/
def dlSkipped : DownloadResult := { file := [], resource := resSkip, skipped := true }

/-- C3 counterexample: a resource whose download was skipped is still
imported (the result list is non-empty) and its ledger row is rewritten —
it is not left unchanged. -/
theorem skipped_resource_ledger_rewritten :
    dlSkipped.skipped = true ∧
    (importAllFiles dbWithLedger 7 [dlSkipped]).2 ≠ [] ∧
    (importAllFiles dbWithLedger 7 [dlSkipped]).1.metadata "r1"
      ≠ dbWithLedger.metadata "r1" := by
  exact ⟨rfl, by decide, by decide⟩

/-- Result-list length of the import phase equals the download count. -/
theorem importAllFiles_results_length (now : Nat) (dls : List DownloadResult) :
    ∀ db : DBState, (importAllFiles db now dls).2.length = dls.length := by
  induction dls with
  | nil => intro db; rfl
  | cons d ds ih =>
    intro db
    show ((importAllFiles (importCSVFileNF db now d.resource d.file).db now ds).2.length) + 1
      = ds.length + 1
    rw [ih]

/-- A completed ledger row survives the rest of the import phase: every
later ledger write also carries status "completed". -/
theorem importAllFiles_keeps_completed (now : Nat) (dls : List DownloadResult) :
    ∀ (db : DBState) (k : String) (row : MetaRow),
      db.metadata k = some row → row.status = "completed" →
      ∃ row2, (importAllFiles db now dls).1.metadata k = some row2
        ∧ row2.status = "completed" := by
  induction dls with
  | nil => intro db k row h hs; exact ⟨row, h, hs⟩
  | cons d ds ih =>
    intro db k row h hs
    show ∃ row2,
      (importAllFiles (importCSVFileNF db now d.resource d.file).db now ds).1.metadata k
        = some row2 ∧ row2.status = "completed"
    have hMeta := (importCSVFileNF_spec db now d.resource d.file).2.1
    by_cases hk : k = d.resource.id
    · exact ih (importCSVFileNF db now d.resource d.file).db k
        (mkMetaRow now d.resource
          (acceptedInvoices (extractYearFromFilename d.resource.name) d.file).length)
        (by rw [hMeta]; simp [upsertMeta, hk]) rfl
    · exact ih (importCSVFileNF db now d.resource d.file).db k row
        (by rw [hMeta]; simp [upsertMeta, hk]; exact h) hs

/-- Every download result, skipped or not, gets a completed ledger row from
the import phase. -/
theorem importAllFiles_ledger_completed (now : Nat) (dls : List DownloadResult) :
    ∀ (db : DBState) (dl : DownloadResult), dl ∈ dls →
      ∃ row, (importAllFiles db now dls).1.metadata dl.resource.id = some row
        ∧ row.status = "completed" := by
  induction dls with
  | nil => intro db dl h; cases h
  | cons d ds ih =>
    intro db dl hmem
    cases hmem with
    | head =>
      show ∃ row,
        (importAllFiles (importCSVFileNF db now d.resource d.file).db now ds).1.metadata
          d.resource.id = some row ∧ row.status = "completed"
      have hMeta := (importCSVFileNF_spec db now d.resource d.file).2.1
      exact importAllFiles_keeps_completed now ds _ d.resource.id
        (mkMetaRow now d.resource
          (acceptedInvoices (extractYearFromFilename d.resource.name) d.file).length)
        (by rw [hMeta]; simp [upsertMeta]) rfl
    | tail _ h2 =>
      show ∃ row,
        (importAllFiles (importCSVFileNF db now d.resource d.file).db now ds).1.metadata
          dl.resource.id = some row ∧ row.status = "completed"
      exact ih _ dl h2

/-- C3 amended: the import phase processes every entry of the download
results — the loop never consults the `skipped` flag — so even a skipped
resource is re-imported (one result entry per download) and its ledger row
is rewritten with status "completed". -/
theorem importAllFiles_processes_all (db : DBState) (now : Nat) (dls : List DownloadResult)
    (dl : DownloadResult) (hmem : dl ∈ dls) :
    (importAllFiles db now dls).2.length = dls.length ∧
    ∃ row, (importAllFiles db now dls).1.metadata dl.resource.id = some row
      ∧ row.status = "completed" :=
  ⟨importAllFiles_results_length now dls db,
   importAllFiles_ledger_completed now dls db dl hmem⟩

/-- Witness for the amended C3 at the concrete skipped download. -/
theorem importAllFiles_processes_all_witness :
    (importAllFiles dbWithLedger 7 [dlSkipped]).2.length = 1 ∧
    ∃ row, (importAllFiles dbWithLedger 7 [dlSkipped]).1.metadata dlSkipped.resource.id
      = some row ∧ row.status = "completed" :=
  importAllFiles_processes_all dbWithLedger 7 [dlSkipped] dlSkipped (by simp)

/-- Provenance of invoice rows: after the import phase, every row of the
invoice table was either already in the database or carries the data year
extracted from the filename of one of the imported resources. -/
theorem importAllFiles_invoices_from (now : Nat) (dls : List DownloadResult) :
    ∀ (db : DBState) (k : String) (inv : Invoice),
      (importAllFiles db now dls).1.invoices k = some inv →
      db.invoices k = some inv ∨
      ∃ dl ∈ dls, inv.data_year = extractYearFromFilename dl.resource.name := by
  induction dls with
  | nil =>
    intro db k inv h
    exact Or.inl h
  | cons d ds ih =>
    intro db k inv h
    have h2 := ih (importCSVFileNF db now d.resource d.file).db k inv h
    cases h2 with
    | inl hdb =>
      have hI := (importCSVFileNF_spec db now d.resource d.file).1
      rw [hI] at hdb
      cases insertBatch_mem _ _ _ _ hdb with
      | inl hmem =>
        right
        refine ⟨d, by simp, ?_⟩
        unfold acceptedInvoices at hmem
        obtain ⟨r, hr, rfl⟩ := List.mem_map.mp (List.mem_of_mem_filter hmem)
        rfl
      | inr hold => exact Or.inl hold
    | inr hex =>
      obtain ⟨dl, hdl, hy⟩ := hex
      exact Or.inr ⟨dl, by simp [hdl], hy⟩

/-- C6: with the clear flag set together with a non-empty years list, the
wipe is global — `clearInvoiceData` empties both tables for any database,
not just the selected years — and since the subsequent download phase is
restricted to the selected years, every invoice row present after the run
carries a selected year: rows of non-selected years (for example 2023
under a years list of [2024]) are gone. -/
theorem clear_with_years_global_wipe (db : DBState) (catalog : List Resource)
    (fileExists : String → Bool) (fileOf : String → List Record) (now : Nat)
    (force : Bool) (ys : List Int) (hys : ys ≠ []) :
    clearInvoiceData db = emptyDB ∧
    ∀ (k : String) (inv : Invoice),
      (updateProcurementData
          { years := some ys, forceRedownload := force, clearExisting := true }
          catalog fileExists fileOf db now).1.invoices k = some inv →
      ∃ y ∈ ys, inv.data_year = some y := by
  refine ⟨rfl, ?_⟩
  intro k inv h
  rw [updateProcurementData] at h
  by_cases hemp :
      (downloadAllProcurementFiles catalog (some ys) force fileExists fileOf).isEmpty = true
  · rw [if_pos hemp] at h
    exact absurd h (by simp [clearInvoiceData, emptyDB])
  · rw [if_neg hemp] at h
    have h2 := importAllFiles_invoices_from now
      (downloadAllProcurementFiles catalog (some ys) force fileExists fileOf)
      (clearInvoiceData db) k inv h
    cases h2 with
    | inl h0 => exact absurd h0 (by simp [clearInvoiceData, emptyDB])
    | inr hex =>
      obtain ⟨dl, hdl, hy⟩ := hex
      have hysne : ys.isEmpty = false := by
        cases ys with
        | nil => exact absurd rfl hys
        | cons a l => rfl
      rw [downloadAllProcurementFiles] at hdl
      simp only [hysne, Bool.false_eq_true, if_false] at hdl
      obtain ⟨r, hr, rfl⟩ := List.mem_map.mp hdl
      have hrf := List.of_mem_filter hr
      cases hyr : extractYearFromFilename r.name with
      | none =>
        rw [hyr] at hrf
        simp at hrf
      | some y =>
        rw [hyr] at hrf
        simp at hrf
        exact ⟨y, hrf, by rw [hy]; exact hyr⟩

/-- Witness for C6 at a concrete non-empty years list. -/
theorem clear_with_years_global_wipe_witness :
    clearInvoiceData dbWithLedger = emptyDB ∧
    ∀ (k : String) (inv : Invoice),
      (updateProcurementData
          { years := some [2024], forceRedownload := false, clearExisting := true }
          [] (fun _ => false) (fun _ => []) dbWithLedger 3).1.invoices k = some inv →
      ∃ y ∈ [(2024 : Int)], inv.data_year = some y :=
  clear_with_years_global_wipe dbWithLedger [] (fun _ => false) (fun _ => []) 3 false
    [2024] (by decide)

/-- Does position `i` of the character list start four consecutive digits? -/
def winAt (l : List Char) (i : Nat) : Bool :=
  match l.drop i with
  | c1 :: c2 :: c3 :: c4 :: _ => c1.isDigit && c2.isDigit && c3.isDigit && c4.isDigit
  | _ => false

/-- The window test at position zero agrees with the head test. -/
theorem winAt_zero (c : Char) (tl : List Char) : winAt (c :: tl) 0 = fourDigitHead c tl := by
  match tl with
  | [] => simp [winAt, fourDigitHead]
  | [c2] => simp [winAt, fourDigitHead]
  | [c2, c3] => simp [winAt, fourDigitHead]
  | c2 :: c3 :: c4 :: rest =>
    show (c.isDigit && c2.isDigit && c3.isDigit && c4.isDigit) = _
    simp [fourDigitHead, Bool.and_assoc]

/-- Characterization of the regex scan: `findFourDigits` returns `none`
exactly when no position starts four digits, and returns the window at the
least such position otherwise. -/
theorem findFourDigits_iff (l : List Char) :
    (findFourDigits l = none ↔ ∀ i, winAt l i = false) ∧
    ∀ w, findFourDigits l = some w ↔
      ∃ i, winAt l i = true ∧ (∀ j, j < i → winAt l j = false) ∧ w = (l.drop i).take 4 := by
  induction l with
  | nil =>
    constructor
    · constructor
      · intro _ i
        cases i <;> rfl
      · intro _
        rfl
    · intro w
      constructor
      · intro h
        simp [findFourDigits] at h
      · rintro ⟨i, hwin, -, -⟩
        exfalso
        cases i <;> simp [winAt] at hwin
  | cons c tl ih =>
    obtain ⟨ihn, ihs⟩ := ih
    by_cases hh : fourDigitHead c tl = true
    · have he : findFourDigits (c :: tl) = some (c :: tl.take 3) := by
        simp [findFourDigits, hh]
      constructor
      · constructor
        · intro h
          rw [he] at h
          cases h
        · intro hall
          exfalso
          have h0 := hall 0
          rw [winAt_zero, hh] at h0
          cases h0
      · intro w
        constructor
        · intro h
          rw [he] at h
          injection h with h2
          refine ⟨0, by rw [winAt_zero]; exact hh, fun j hj => absurd hj (Nat.not_lt_zero j), ?_⟩
          rw [← h2]
          rfl
        · rintro ⟨i, hwin, hmin, hw⟩
          cases i with
          | zero =>
            rw [he, hw]
            rfl
          | succ n =>
            exfalso
            have h0 := hmin 0 (Nat.succ_pos n)
            rw [winAt_zero, hh] at h0
            cases h0
    · have hh2 : fourDigitHead c tl = false := by simpa using hh
      have he : findFourDigits (c :: tl) = findFourDigits tl := by
        simp [findFourDigits, hh2]
      constructor
      · rw [he, ihn]
        constructor
        · intro hall i
          cases i with
          | zero =>
            rw [winAt_zero]
            exact hh2
          | succ n => exact hall n
        · intro hall i
          exact hall (i + 1)
      · intro w
        rw [he, ihs w]
        constructor
        · rintro ⟨i, hwin, hmin, hw⟩
          refine ⟨i + 1, hwin, ?_, hw⟩
          intro j hj
          cases j with
          | zero =>
            rw [winAt_zero]
            exact hh2
          | succ m => exact hmin m (by omega)
        · rintro ⟨i, hwin, hmin, hw⟩
          cases i with
          | zero =>
            exfalso
            rw [winAt_zero, hh2] at hwin
            cases hwin
          | succ n => exact ⟨n, hwin, fun j hj => hmin (j + 1) (by omega), hw⟩

/-- C2 amended: `extractYear` returns the integer value of the leftmost
window of four consecutive digits — which may be the first four digits of a
longer digit run — and `null` exactly when no position of the filename
starts four consecutive digits. -/
theorem extractYear_first_window_spec (s : String) :
    (extractYearFromFilename s = none ↔ ∀ i, winAt s.data i = false) ∧
    ∀ n : Int, extractYearFromFilename s = some n ↔
      ∃ i, winAt s.data i = true ∧ (∀ j, j < i → winAt s.data j = false) ∧
        n = (digitsToNat ((s.data.drop i).take 4) : Int) := by
  obtain ⟨hn, hs⟩ := findFourDigits_iff s.data
  constructor
  · rw [extractYearFromFilename, Option.map_eq_none']
    exact hn
  · intro n
    constructor
    · intro h
      rw [extractYearFromFilename, Option.map_eq_some'] at h
      obtain ⟨w, hw, hmap⟩ := h
      obtain ⟨i, h1, h2, h3⟩ := (hs w).mp hw
      exact ⟨i, h1, h2, by rw [← hmap, h3]⟩
    · rintro ⟨i, h1, h2, h3⟩
      rw [extractYearFromFilename]
      rw [(hs _).mpr ⟨i, h1, h2, rfl⟩]
      rw [h3]
      rfl

/-- Witness for the amended C2 at a concrete filename, through the
least-window characterization at position 8. -/
theorem extractYear_first_window_spec_witness :
    extractYearFromFilename "th_data_2024.csv" = some 2024 :=
  ((extractYear_first_window_spec "th_data_2024.csv").2 2024).mpr
    ⟨8, by decide, by decide, by decide⟩

/-- Maximal runs of consecutive digits of a string. -/
def digitRuns (s : String) : List (List Char) :=
  (s.data.splitBy (fun a b => a.isDigit == b.isDigit)).filter
    (fun g => g.all (fun c => c.isDigit))

/-- The spec-side reading of C2, for comparison with the code: the first
maximal run of exactly four consecutive digits, `null` when no run has
length exactly four. -/
def specExtractYearFromFilename (s : String) : Option Int :=
  ((digitRuns s).find? (fun run => run.length == 4)).map (fun run => (digitsToNat run : Int))

/-- C2 counterexample: a filename whose only digit run has five digits.
The claim (first run of exactly four consecutive digits, else null)
requires `null` here, but the code returns 2023 — the first four digits of
the five-digit run. -/
theorem extractYear_five_digit_run :
    extractYearFromFilename "th_data_20231.csv" = some 2023 ∧
    specExtractYearFromFilename "th_data_20231.csv" = none :=
  ⟨by decide, by decide⟩

/-- The comparator used by the year sort. -/
def yearLe (a b : Resource) : Bool := decide (yearKey b ≤ yearKey a)

/-- The year comparator is transitive. -/
theorem yearLe_trans (a b c : Resource) (h1 : yearLe a b) (h2 : yearLe b c) : yearLe a c := by
  simp only [yearLe, decide_eq_true_iff] at *
  omega

/-- The year comparator is total. -/
theorem yearLe_total (a b : Resource) : yearLe a b || yearLe b a := by
  simp only [yearLe]
  rcases Int.le_total (yearKey b) (yearKey a) with h | h <;> simp [h]

/-- The data-file resource of the C9 scenario. -/
def resData2023 : Resource :=
  { id := "1", name := "th_data_2023.csv", url := "u", format := "CSV", last_modified := "" }

/-- The translation-file resource of the C9 scenario. -/
def resKaannokset2023 : Resource :=
  { id := "2", name := "th_data_2023_kaannokset.csv", url := "u", format := "CSV",
    last_modified := "" }

/-- C9: `filterProcurementResources` returns exactly the catalog resources
matching the naming convention (prefix th_data_, format or extension
csv/tsv) that are not translation files; the result is sorted by descending
extracted year (a resource without a year sorts with key 0, as the
JavaScript comparator coerces null to 0) with ties kept in original catalog
order; and on the concrete two-resource descriptor only the data file is
returned. -/
theorem filterResources_spec (catalog : List Resource) :
    (∀ r, r ∈ filterProcurementResources catalog ↔ r ∈ catalog ∧ resourceKeep r = true) ∧
    (filterProcurementResources catalog).Pairwise (fun a b => yearKey b ≤ yearKey a) ∧
    (∀ y : Int, (filterProcurementResources catalog).filter (fun r => yearKey r == y)
        = (catalog.filter resourceKeep).filter (fun r => yearKey r == y)) ∧
    filterProcurementResources [resData2023, resKaannokset2023] = [resData2023] := by
  refine ⟨?_, ?_, ?_, ?_⟩
  · intro r
    rw [filterProcurementResources, List.mem_mergeSort, List.mem_filter]
  · have hs := @List.sorted_mergeSort _ yearLe yearLe_trans yearLe_total
      (catalog.filter resourceKeep)
    exact hs.imp (fun h => by simpa [yearLe] using h)
  · intro y
    have htrans : ∀ a b c : Resource, yearLe a b → yearLe b c → yearLe a c := yearLe_trans
    have htotal : ∀ a b : Resource, yearLe a b || yearLe b a := yearLe_total
    have hBpw : ((catalog.filter resourceKeep).filter (fun r => yearKey r == y)).Pairwise
        (fun a b => yearLe a b) := by
      apply List.pairwise_of_forall_mem_list
      intro a ha b hb
      have hay : yearKey a = y := by simpa using (List.of_mem_filter ha)
      have hby : yearKey b = y := by simpa using (List.of_mem_filter hb)
      simp [yearLe, hay, hby]
    have hBsub : List.Sublist ((catalog.filter resourceKeep).filter (fun r => yearKey r == y))
        (catalog.filter resourceKeep) := List.filter_sublist _
    have hBms : List.Sublist ((catalog.filter resourceKeep).filter (fun r => yearKey r == y))
        ((catalog.filter resourceKeep).mergeSort yearLe) :=
      List.sublist_mergeSort htrans htotal hBpw hBsub
    have hBfix : ((catalog.filter resourceKeep).filter (fun r => yearKey r == y)).filter
        (fun r => yearKey r == y)
        = (catalog.filter resourceKeep).filter (fun r => yearKey r == y) := by
      apply List.filter_eq_self.mpr
      intro a ha
      have h2 := List.of_mem_filter ha
      exact h2
    have hsubA : List.Sublist
        ((catalog.filter resourceKeep).filter (fun r => yearKey r == y))
        (((catalog.filter resourceKeep).mergeSort yearLe).filter
            (fun r => yearKey r == y)) := by
      rw [← hBfix]
      exact List.Sublist.filter _ hBms
    have hlenA : (((catalog.filter resourceKeep).mergeSort yearLe).filter
        (fun r => yearKey r == y)).length
        = ((catalog.filter resourceKeep).filter (fun r => yearKey r == y)).length := by
      have hperm := (List.mergeSort_perm (catalog.filter resourceKeep) yearLe).filter
        (fun r => yearKey r == y)
      exact hperm.length_eq
    exact ((List.Sublist.eq_of_length hsubA hlenA.symm).symm : _)
  · have hfil : List.filter resourceKeep [resData2023, resKaannokset2023] = [resData2023] := by
      decide
    rw [filterProcurementResources, hfil]
    exact List.mergeSort_singleton resData2023

/-- Witness for C9 at a concrete catalog: the two-resource scenario keeps
only the data file. -/
theorem filterResources_spec_witness :
    filterProcurementResources [resData2023, resKaannokset2023] = [resData2023] :=
  (filterResources_spec []).2.2.2

end Fpapi
